import Mathlib

/-!
Verification of the PE feature-extraction program in generatedata.py.

The Python source is shallowly embedded below.  Machine integers from the
PE headers are modelled as natural numbers (pefile returns nonnegative
Python integers), Python floats as real numbers, byte buffers as lists of
values in Fin 256, fallible operations as Option or Except values, and the
pefile object interface as plain structures whose conditionally present
attributes are Option fields (an attribute access on a missing field is a
Python AttributeError, and the corresponding try or hasattr handling in the
source is translated into matches on the Option).
-/

/-- A byte value as stored in a Python bytes object. -/
abbrev Byte := Fin 256

/-- Python exception kinds that the program can raise or catch.  The
distinction matters: generatedata.py catches pefile.PEFormatError in its
batch loop and AttributeError around individual directory reads, so an
exception of a different kind propagates. -/
inductive PyErr where
  | attributeError
  | typeError
  | peFormatError
  deriving DecidableEq, Repr

/-- Shannon entropy of a byte buffer, mirroring get_entropy in
generatedata.py.  An empty input returns 0.0 before any probability
computation.  Otherwise a 256-bucket histogram is built (the loop
`occurences[x] += 1` makes bucket b hold `data.count b`), and for each
bucket with nonzero count the accumulator is decreased by p * log2 p where
p is the bucket count divided by the buffer length. -/
noncomputable def get_entropy (data : List Byte) : ℝ :=
  if data.length = 0 then 0
  else
    (List.finRange 256).foldl
      (fun entropy x =>
        if data.count x ≠ 0 then
          entropy - ((data.count x : ℝ) / (data.length : ℝ)) *
            Real.logb 2 ((data.count x : ℝ) / (data.length : ℝ))
        else entropy) 0

/-- The probability assigned to byte b by the histogram of data. -/
noncomputable def byteProb (data : List Byte) (b : Byte) : ℝ :=
  (data.count b : ℝ) / (data.length : ℝ)

/-- The histogram support: buckets with nonzero count. -/
def byteSupport (data : List Byte) : Finset Byte :=
  Finset.univ.filter (fun b : Byte => data.count b ≠ 0)

/-- A section entry as exposed by pefile, restricted to the fields the
program reads.  The get_entropy field stores the value of the pefile
method Section.get_entropy(): the entropy of the raw data of the section,
computed by the library and consumed by the program as an opaque float. -/
structure SectionInfo where
  get_entropy : ℝ
  SizeOfRawData : ℕ
  Misc_VirtualSize : ℕ

/-- An imported symbol; name is None for an import by ordinal. -/
structure ImportedSymbol where
  name : Option String
  deriving DecidableEq

/-- One import descriptor (one DLL) with its imported symbols. -/
structure ImportDescriptor where
  imports : List ImportedSymbol
  deriving DecidableEq

/-- The export directory object; only the length of symbols is read. -/
structure ExportDir where
  symbols : List String
  deriving DecidableEq

/-- The struct of a resource leaf, resource_lang.data.struct. -/
structure ResourceDataStruct where
  OffsetToData : ℕ
  Size : ℕ

/-- A language-level resource entry.  The data attribute can be absent on
malformed entries, in which case reading it raises AttributeError and the
resource walk is cut short. -/
structure LangEntry where
  data : Option ResourceDataStruct

/-- An id-level resource entry; directory is the attribute probed by
hasattr(resource_id, "directory"). -/
structure IdEntry where
  directory : Option (List LangEntry)

/-- A type-level resource entry; directory is the attribute probed by
hasattr(resource_type, "directory"). -/
structure TypeEntry where
  directory : Option (List IdEntry)

/-- A value of the version-information mapping: string-table values are
strings, the VS_FIXEDFILEINFO entries are integers. -/
inductive VIVal where
  | s (v : String)
  | n (v : ℕ)
  deriving DecidableEq

/-- One Var object inside a VarFileInfo block; entry models the var.entry
Python dict. -/
structure VarStruct where
  entry : List (String × ℕ)

/-- One entry of pe.FileInfo with the attributes get_version_info reads. -/
structure FileInfoBlock where
  Key : String
  StringTable : List (List (String × String))
  Var : List VarStruct

/-- The fields of the VS_FIXEDFILEINFO block read by get_version_info. -/
structure FixedFileInfo where
  FileFlags : ℕ
  FileOS : ℕ
  FileType : ℕ
  FileVersionLS : ℕ
  ProductVersionLS : ℕ
  Signature : ℕ
  StrucVersion : ℕ

/-- The COFF file header fields the program reads. -/
structure FileHeader where
  Machine : ℕ
  SizeOfOptionalHeader : ℕ
  Characteristics : ℕ

/-- The optional header fields the program reads.  BaseOfData exists only
in the 32-bit header variant; reading it on a 64-bit image raises
AttributeError, which extract_infos catches and replaces by 0. -/
structure OptionalHeader where
  MajorLinkerVersion : ℕ
  MinorLinkerVersion : ℕ
  SizeOfCode : ℕ
  SizeOfInitializedData : ℕ
  SizeOfUninitializedData : ℕ
  AddressOfEntryPoint : ℕ
  BaseOfCode : ℕ
  BaseOfData : Option ℕ
  ImageBase : ℕ
  SectionAlignment : ℕ
  FileAlignment : ℕ
  MajorOperatingSystemVersion : ℕ
  MinorOperatingSystemVersion : ℕ
  MajorImageVersion : ℕ
  MinorImageVersion : ℕ
  MajorSubsystemVersion : ℕ
  MinorSubsystemVersion : ℕ
  SizeOfImage : ℕ
  SizeOfHeaders : ℕ
  CheckSum : ℕ
  Subsystem : ℕ
  DllCharacteristics : ℕ
  SizeOfStackReserve : ℕ
  SizeOfStackCommit : ℕ
  SizeOfHeapReserve : ℕ
  SizeOfHeapCommit : ℕ
  LoaderFlags : ℕ
  NumberOfRvaAndSizes : ℕ

/-- The parsed PE object as the program observes it through pefile.
Directory attributes are Option fields: none models a pefile object on
which the attribute is missing, so that hasattr is false and an attribute
access raises AttributeError.  DIRECTORY_ENTRY_LOAD_CONFIG stores the
struct.Size value the program reads.  get_data models pe.get_data(rva,
size); none models any exception the library raises for an unresolvable
range. -/
structure PEState where
  FILE_HEADER : FileHeader
  OPTIONAL_HEADER : OptionalHeader
  sections : List SectionInfo
  DIRECTORY_ENTRY_IMPORT : Option (List ImportDescriptor)
  DIRECTORY_ENTRY_EXPORT : Option ExportDir
  DIRECTORY_ENTRY_RESOURCE : Option (List TypeEntry)
  DIRECTORY_ENTRY_LOAD_CONFIG : Option ℕ
  FileInfo : Option (List FileInfoBlock)
  VS_FIXEDFILEINFO : Option FixedFileInfo
  get_data : ℕ → ℕ → Option (List Byte)

/-- Processing of one language-level leaf in get_resources: read the data
attribute, call pe.get_data on (OffsetToData, Size) and compute the
entropy of the returned bytes.  none models the exception (AttributeError
on a missing data attribute, or a pefile error from get_data) that aborts
the walk. -/
noncomputable def leafResult (pe : PEState) (le : LangEntry) : Option (ℝ × ℕ) :=
  match le.data with
  | none => none
  | some d =>
    match pe.get_data d.OffsetToData d.Size with
    | none => none
    | some bytes => some (get_entropy bytes, d.Size)

/-- Innermost loop of get_resources over resource_id.directory.entries:
appends (entropy, size) for each leaf and stops with an error flag at the
first failing leaf; the Python exception handler then returns the list
collected so far. -/
noncomputable def walkLang (pe : PEState) (acc : List (ℝ × ℕ)) :
    List LangEntry → List (ℝ × ℕ) × Bool
  | [] => (acc, false)
  | le :: rest =>
    match leafResult pe le with
    | none => (acc, true)
    | some p => walkLang pe (acc ++ [p]) rest

/-- Middle loop of get_resources over resource_type.directory.entries,
with the hasattr(resource_id, "directory") guard. -/
noncomputable def walkId (pe : PEState) (acc : List (ℝ × ℕ)) :
    List IdEntry → List (ℝ × ℕ) × Bool
  | [] => (acc, false)
  | ie :: rest =>
    match ie.directory with
    | none => walkId pe acc rest
    | some langs =>
      match walkLang pe acc langs with
      | (acc2, true) => (acc2, true)
      | (acc2, false) => walkId pe acc2 rest

/-- Outer loop of get_resources over pe.DIRECTORY_ENTRY_RESOURCE.entries,
with the hasattr(resource_type, "directory") guard. -/
noncomputable def walkType (pe : PEState) (acc : List (ℝ × ℕ)) :
    List TypeEntry → List (ℝ × ℕ) × Bool
  | [] => (acc, false)
  | te :: rest =>
    match te.directory with
    | none => walkType pe acc rest
    | some ids =>
      match walkId pe acc ids with
      | (acc2, true) => (acc2, true)
      | (acc2, false) => walkType pe acc2 rest

/-- get_resources from generatedata.py: if the resource directory is
absent the empty list is returned; otherwise the tree is walked and on
any exception the list collected so far is returned, the error flag of
the walk being dropped by the except handler. -/
noncomputable def get_resources (pe : PEState) : List (ℝ × ℕ) :=
  match pe.DIRECTORY_ENTRY_RESOURCE with
  | none => []
  | some types => (walkType pe [] types).1

/-- Insertion with Python dict semantics: overwriting an existing key
keeps its position, a new key is appended at the end. -/
def dictInsert (d : List (String × VIVal)) (k : String) (v : VIVal) :
    List (String × VIVal) :=
  if d.any (fun p => p.1 = k) then
    d.map (fun p => if p.1 = k then (k, v) else p)
  else d ++ [(k, v)]

/-- One iteration of the fileinfo loop in get_version_info.  For a
StringFileInfo block all string-table entries are merged into the result
dict.  For a VarFileInfo block the source evaluates
var.entry.items()[0][0] for each var; under Python 3, dict.items()
returns a view object that does not support subscripting, so this raises
TypeError as soon as the Var list is nonempty. -/
def viProcessBlock (res : List (String × VIVal)) (fi : FileInfoBlock) :
    Except PyErr (List (String × VIVal)) :=
  let res1 :=
    if fi.Key = "StringFileInfo" then
      fi.StringTable.foldl
        (fun r st => st.foldl (fun r e => dictInsert r e.1 (VIVal.s e.2)) r) res
    else res
  if fi.Key = "VarFileInfo" then
    match fi.Var with
    | [] => Except.ok res1
    | _ :: _ => Except.error PyErr.typeError
  else Except.ok res1

/-- The seven fixed keys added from VS_FIXEDFILEINFO when it is present. -/
def addFixedFileInfo (pe : PEState) (res : List (String × VIVal)) :
    List (String × VIVal) :=
  match pe.VS_FIXEDFILEINFO with
  | none => res
  | some ffi =>
    let r1 := dictInsert res "flags" (VIVal.n ffi.FileFlags)
    let r2 := dictInsert r1 "os" (VIVal.n ffi.FileOS)
    let r3 := dictInsert r2 "type" (VIVal.n ffi.FileType)
    let r4 := dictInsert r3 "file_version" (VIVal.n ffi.FileVersionLS)
    let r5 := dictInsert r4 "product_version" (VIVal.n ffi.ProductVersionLS)
    let r6 := dictInsert r5 "signature" (VIVal.n ffi.Signature)
    dictInsert r6 "struct_version" (VIVal.n ffi.StrucVersion)

/-- get_version_info from generatedata.py.  Reading pe.FileInfo on an
object without that attribute raises AttributeError, which the caller in
extract_infos catches; a VarFileInfo block with a nonempty Var list
raises TypeError, which nothing catches. -/
def get_version_info (pe : PEState) : Except PyErr (List (String × VIVal)) :=
  match pe.FileInfo with
  | none => Except.error PyErr.attributeError
  | some fis =>
    match List.foldlM viProcessBlock [] fis with
    | Except.ok res => Except.ok (addFixedFileInfo pe res)
    | Except.error e => Except.error e

/-- A value appended to the feature list: Python strings, ints, floats. -/
inductive FeatureValue where
  | str (v : String)
  | int (v : ℕ)
  | real (v : ℝ)

/-- Python min(list) for a nonempty list, written as a fold over the tail
starting from the head; the default is returned for the empty list, on
which the source never calls min. -/
def listMinD {α : Type} [LinearOrder α] (l : List α) (dflt : α) : α :=
  match l with
  | [] => dflt
  | x :: xs => xs.foldl min x

/-- Python max(list), same conventions as listMinD. -/
def listMaxD {α : Type} [LinearOrder α] (l : List α) (dflt : α) : α :=
  match l with
  | [] => dflt
  | x :: xs => xs.foldl max x

/-- The mean/min/max triple the program appends for a list of floats
(section entropies, resource entropies): arithmetic mean and exact
extrema for a nonempty list, three literal integer zeros otherwise. -/
noncomputable def statsR (l : List ℝ) : List FeatureValue :=
  if 0 < l.length then
    [FeatureValue.real (l.sum / (l.length : ℝ)),
     FeatureValue.real (listMinD l 0),
     FeatureValue.real (listMaxD l 0)]
  else [FeatureValue.int 0, FeatureValue.int 0, FeatureValue.int 0]

/-- The mean/min/max triple for a list of integers (raw sizes, virtual
sizes, resource sizes): the mean sum / float(len) is a float, min and max
stay integers; three literal integer zeros for an empty list. -/
noncomputable def statsN (l : List ℕ) : List FeatureValue :=
  if 0 < l.length then
    [FeatureValue.real ((l.sum : ℝ) / (l.length : ℝ)),
     FeatureValue.int (listMinD l 0),
     FeatureValue.int (listMaxD l 0)]
  else [FeatureValue.int 0, FeatureValue.int 0, FeatureValue.int 0]

/-- The three import fields of extract_infos.  The source wraps the block
in try/except AttributeError; the only failing operation is the initial
access to pe.DIRECTORY_ENTRY_IMPORT, so an absent directory yields
(0, 0, 0) and a present one yields the module count, the length of the
flattened symbol list (sum of the per-module import lists), and the
count of symbols whose name is None. -/
def importCounts (pe : PEState) : ℕ × ℕ × ℕ :=
  match pe.DIRECTORY_ENTRY_IMPORT with
  | none => (0, 0, 0)
  | some dlls =>
    let imports := (dlls.map (fun x => x.imports)).flatten
    (dlls.length, imports.length,
      (imports.filter (fun x => x.name = none)).length)

/-- ExportNb: len(pe.DIRECTORY_ENTRY_EXPORT.symbols), or 0 from the
except AttributeError branch when the directory is absent. -/
def exportCount (pe : PEState) : ℕ :=
  match pe.DIRECTORY_ENTRY_EXPORT with
  | none => 0
  | some e => e.symbols.length

/-- LoadConfigurationSize: pe.DIRECTORY_ENTRY_LOAD_CONFIG.struct.Size, or
0 from the except AttributeError branch when the directory is absent. -/
def loadConfigSize (pe : PEState) : ℕ :=
  match pe.DIRECTORY_ENTRY_LOAD_CONFIG with
  | none => 0
  | some s => s

/-- One input file as extract_infos sees it: the basename, the md5 hex
digest get_md5 computes from the content, and the outcome of
pefile.PE(fpath), where none models a raised pefile.PEFormatError. -/
structure FileRec where
  name : String
  md5 : String
  parse : Option PEState

/-- The feature list built by extract_infos after a successful parse, in
source append order; versionField is the already-resolved final field.
The source guards the two resource statistic triples by a single
`if len(resources) > 0`, which is equivalent to the per-triple guards
used here because mapping a projection preserves emptiness. -/
noncomputable def mkVector (f : FileRec) (pe : PEState)
    (versionField : FeatureValue) : List FeatureValue :=
  [FeatureValue.str f.name,
   FeatureValue.str f.md5,
   FeatureValue.int pe.FILE_HEADER.Machine,
   FeatureValue.int pe.FILE_HEADER.SizeOfOptionalHeader,
   FeatureValue.int pe.FILE_HEADER.Characteristics,
   FeatureValue.int pe.OPTIONAL_HEADER.MajorLinkerVersion,
   FeatureValue.int pe.OPTIONAL_HEADER.MinorLinkerVersion,
   FeatureValue.int pe.OPTIONAL_HEADER.SizeOfCode,
   FeatureValue.int pe.OPTIONAL_HEADER.SizeOfInitializedData,
   FeatureValue.int pe.OPTIONAL_HEADER.SizeOfUninitializedData,
   FeatureValue.int pe.OPTIONAL_HEADER.AddressOfEntryPoint,
   FeatureValue.int pe.OPTIONAL_HEADER.BaseOfCode,
   FeatureValue.int (match pe.OPTIONAL_HEADER.BaseOfData with
     | some v => v
     | none => 0),
   FeatureValue.int pe.OPTIONAL_HEADER.ImageBase,
   FeatureValue.int pe.OPTIONAL_HEADER.SectionAlignment,
   FeatureValue.int pe.OPTIONAL_HEADER.FileAlignment,
   FeatureValue.int pe.OPTIONAL_HEADER.MajorOperatingSystemVersion,
   FeatureValue.int pe.OPTIONAL_HEADER.MinorOperatingSystemVersion,
   FeatureValue.int pe.OPTIONAL_HEADER.MajorImageVersion,
   FeatureValue.int pe.OPTIONAL_HEADER.MinorImageVersion,
   FeatureValue.int pe.OPTIONAL_HEADER.MajorSubsystemVersion,
   FeatureValue.int pe.OPTIONAL_HEADER.MinorSubsystemVersion,
   FeatureValue.int pe.OPTIONAL_HEADER.SizeOfImage,
   FeatureValue.int pe.OPTIONAL_HEADER.SizeOfHeaders,
   FeatureValue.int pe.OPTIONAL_HEADER.CheckSum,
   FeatureValue.int pe.OPTIONAL_HEADER.Subsystem,
   FeatureValue.int pe.OPTIONAL_HEADER.DllCharacteristics,
   FeatureValue.int pe.OPTIONAL_HEADER.SizeOfStackReserve,
   FeatureValue.int pe.OPTIONAL_HEADER.SizeOfStackCommit,
   FeatureValue.int pe.OPTIONAL_HEADER.SizeOfHeapReserve,
   FeatureValue.int pe.OPTIONAL_HEADER.SizeOfHeapCommit,
   FeatureValue.int pe.OPTIONAL_HEADER.LoaderFlags,
   FeatureValue.int pe.OPTIONAL_HEADER.NumberOfRvaAndSizes,
   FeatureValue.int pe.sections.length]
  ++ statsR (pe.sections.map (fun x => x.get_entropy))
  ++ statsN (pe.sections.map (fun x => x.SizeOfRawData))
  ++ statsN (pe.sections.map (fun x => x.Misc_VirtualSize))
  ++ [FeatureValue.int (importCounts pe).1,
      FeatureValue.int (importCounts pe).2.1,
      FeatureValue.int (importCounts pe).2.2,
      FeatureValue.int (exportCount pe),
      FeatureValue.int (get_resources pe).length]
  ++ statsR ((get_resources pe).map Prod.fst)
  ++ statsN ((get_resources pe).map Prod.snd)
  ++ [FeatureValue.int (loadConfigSize pe), versionField]

/-- extract_infos from generatedata.py.  A parse failure in pefile.PE is
the PEFormatError the batch caller catches; after a successful parse the
only remaining failure is the TypeError escaping get_version_info, whose
AttributeError for an absent FileInfo is caught and replaced by a zero
key count.  The Except value carries either the full feature list or the
propagated error, never a partial list. -/
noncomputable def extract_infos (f : FileRec) : Except PyErr (List FeatureValue) :=
  match f.parse with
  | none => Except.error PyErr.peFormatError
  | some pe =>
    match get_version_info pe with
    | Except.ok m => Except.ok (mkVector f pe (FeatureValue.int m.length))
    | Except.error PyErr.attributeError =>
      Except.ok (mkVector f pe (FeatureValue.int 0))
    | Except.error e => Except.error e

/-- The header column list of the batch tool, verbatim: 58 names,
including impash, a field extract_infos never emits because the
corresponding append is commented out, and the trailing label column. -/
def columns : List String :=
  ["Name", "md5", "impash", "Machine", "SizeOfOptionalHeader", "Characteristics",
   "MajorLinkerVersion", "MinorLinkerVersion", "SizeOfCode",
   "SizeOfInitializedData", "SizeOfUninitializedData",
   "AddressOfEntryPoint", "BaseOfCode", "BaseOfData", "ImageBase",
   "SectionAlignment", "FileAlignment", "MajorOperatingSystemVersion",
   "MinorOperatingSystemVersion", "MajorImageVersion",
   "MinorImageVersion", "MajorSubsystemVersion", "MinorSubsystemVersion",
   "SizeOfImage", "SizeOfHeaders", "CheckSum", "Subsystem",
   "DllCharacteristics", "SizeOfStackReserve", "SizeOfStackCommit",
   "SizeOfHeapReserve", "SizeOfHeapCommit", "LoaderFlags",
   "NumberOfRvaAndSizes", "SectionsNb", "SectionsMeanEntropy",
   "SectionsMinEntropy", "SectionsMaxEntropy", "SectionsMeanRawsize",
   "SectionsMinRawsize", "SectionMaxRawsize", "SectionsMeanVirtualsize",
   "SectionsMinVirtualsize", "SectionMaxVirtualsize", "ImportsNbDLL",
   "ImportsNb", "ImportsNbOrdinal", "ExportNb", "ResourcesNb",
   "ResourcesMeanEntropy", "ResourcesMinEntropy", "ResourcesMaxEntropy",
   "ResourcesMeanSize", "ResourcesMinSize", "ResourcesMaxSize",
   "LoadConfigurationSize", "VersionInformationSize", "legitimate"]

/-- The feature schema of spec section 6, transcribed verbatim for
comparison with the vector the program produces.  The banner sentence of
that section announces 57 fields, but the list itself has 56 names. -/
def specSchemaFields : List String :=
  ["Name", "ContentDigest", "Machine", "SizeOfOptionalHeader",
   "Characteristics", "MajorLinkerVersion", "MinorLinkerVersion",
   "SizeOfCode", "SizeOfInitializedData", "SizeOfUninitializedData",
   "AddressOfEntryPoint", "BaseOfCode", "BaseOfData", "ImageBase",
   "SectionAlignment", "FileAlignment", "MajorOperatingSystemVersion",
   "MinorOperatingSystemVersion", "MajorImageVersion",
   "MinorImageVersion", "MajorSubsystemVersion", "MinorSubsystemVersion",
   "SizeOfImage", "SizeOfHeaders", "CheckSum", "Subsystem",
   "DllCharacteristics", "SizeOfStackReserve", "SizeOfStackCommit",
   "SizeOfHeapReserve", "SizeOfHeapCommit", "LoaderFlags",
   "NumberOfRvaAndSizes", "SectionsNb", "SectionsMeanEntropy",
   "SectionsMinEntropy", "SectionsMaxEntropy", "SectionsMeanRawsize",
   "SectionsMinRawsize", "SectionsMaxRawsize", "SectionsMeanVirtualsize",
   "SectionsMinVirtualsize", "SectionsMaxVirtualsize", "ImportsNbDLL",
   "ImportsNb", "ImportsNbOrdinal", "ExportNb", "ResourcesNb",
   "ResourcesMeanEntropy", "ResourcesMinEntropy", "ResourcesMaxEntropy",
   "ResourcesMeanSize", "ResourcesMinSize", "ResourcesMaxSize",
   "LoadConfigurationSize", "VersionInformationSize"]

/-- The per-file loop of the batch tool.  Each file is extracted, the
label appended and the row written; a pefile.PEFormatError makes the tool
print a skip notice and continue with the next file, while any other
exception escapes the loop, so the rows already written stay in the
output and the remaining files are never processed.  The result is the
list of written rows together with the escaping exception, if any. -/
noncomputable def processFiles (label : ℕ) :
    List FileRec → List (List FeatureValue) × Option PyErr
  | [] => ([], none)
  | f :: fs =>
    match extract_infos f with
    | Except.ok v =>
      ((v ++ [FeatureValue.int label]) :: (processFiles label fs).1,
        (processFiles label fs).2)
    | Except.error PyErr.peFormatError => processFiles label fs
    | Except.error e => ([], some e)

/-- Sequential processing of resource leaves: map leafResult over the
leaves in order and stop at the first failing leaf.  This is the linear
description of the walk that get_resources implements with its nested
loops and exception handler. -/
noncomputable def takeLeaves (pe : PEState) : List LangEntry → List (ℝ × ℕ)
  | [] => []
  | le :: rest =>
    match leafResult pe le with
    | none => []
    | some p => p :: takeLeaves pe rest

/-- Whether some leaf of the list fails. -/
noncomputable def hasFail (pe : PEState) : List LangEntry → Bool
  | [] => false
  | le :: rest =>
    match leafResult pe le with
    | none => true
    | some _ => hasFail pe rest

/-- The leaves below a list of id-level entries, in walk order. -/
def idLeaves (ids : List IdEntry) : List LangEntry :=
  ids.flatMap (fun ie => ie.directory.getD [])

/-- The leaves below a list of type-level entries, in walk order. -/
def typeLeaves (types : List TypeEntry) : List LangEntry :=
  types.flatMap (fun te => idLeaves (te.directory.getD []))

/-- The flattened leaf sequence of the whole resource tree. -/
def peResourceLeaves (pe : PEState) : List LangEntry :=
  match pe.DIRECTORY_ENTRY_RESOURCE with
  | none => []
  | some types => typeLeaves types

/-- The all-zero optional header used by the concrete witness files. -/
def zeroOptionalHeader : OptionalHeader where
  MajorLinkerVersion := 0
  MinorLinkerVersion := 0
  SizeOfCode := 0
  SizeOfInitializedData := 0
  SizeOfUninitializedData := 0
  AddressOfEntryPoint := 0
  BaseOfCode := 0
  BaseOfData := none
  ImageBase := 0
  SectionAlignment := 0
  FileAlignment := 0
  MajorOperatingSystemVersion := 0
  MinorOperatingSystemVersion := 0
  MajorImageVersion := 0
  MinorImageVersion := 0
  MajorSubsystemVersion := 0
  MinorSubsystemVersion := 0
  SizeOfImage := 0
  SizeOfHeaders := 0
  CheckSum := 0
  Subsystem := 0
  DllCharacteristics := 0
  SizeOfStackReserve := 0
  SizeOfStackCommit := 0
  SizeOfHeapReserve := 0
  SizeOfHeapCommit := 0
  LoaderFlags := 0
  NumberOfRvaAndSizes := 0

/-- A minimal parsed PE: no sections and every directory absent. -/
def emptyPE : PEState where
  FILE_HEADER := ⟨0, 0, 0⟩
  OPTIONAL_HEADER := zeroOptionalHeader
  sections := []
  DIRECTORY_ENTRY_IMPORT := none
  DIRECTORY_ENTRY_EXPORT := none
  DIRECTORY_ENTRY_RESOURCE := none
  DIRECTORY_ENTRY_LOAD_CONFIG := none
  FileInfo := none
  VS_FIXEDFILEINFO := none
  get_data := fun _ _ => none

/-- A concrete input file that parses to the minimal PE. -/
def file1 : FileRec := ⟨"f.exe", "d41d8cd9", some emptyPE⟩

/-- The feature list extract_infos produces for file1: the two strings
followed by 54 integer zeros. -/
def file1Vec : List FeatureValue :=
  [FeatureValue.str "f.exe", FeatureValue.str "d41d8cd9"] ++
    List.replicate 54 (FeatureValue.int 0)

/-- A PE whose version information holds one VarFileInfo block with one
Var entry: the input on which get_version_info raises TypeError. -/
def varPE : PEState :=
  { emptyPE with
      FileInfo := some [⟨"VarFileInfo", [], [⟨[("Translation", 0)]⟩]⟩] }

/-- A concrete input file that parses to varPE. -/
def file2 : FileRec := ⟨"g.exe", "44aa11bb", some varPE⟩

/-- A file on which pefile.PE raises PEFormatError. -/
def badFile : FileRec := ⟨"bad.exe", "ffee0011", none⟩

/-- A PE with an import directory holding one descriptor whose imports
list is empty. -/
def importPE : PEState :=
  { emptyPE with DIRECTORY_ENTRY_IMPORT := some [⟨[]⟩] }

/-- A fold that repeatedly subtracts g x from the accumulator computes the
initial value minus the sum of g over the list. -/
lemma foldl_sub_eq {α : Type} (g : α → ℝ) :
    ∀ (l : List α) (a : ℝ), l.foldl (fun e x => e - g x) a = a - (l.map g).sum := by
  intro l
  induction l with
  | nil => intro a; simp
  | cons x xs ih => intro a; simp [ih, sub_sub]

/-- On a nonempty buffer, get_entropy equals the negated sum, over the
buckets with nonzero count, of p * log2 p. -/
lemma get_entropy_eq_sum (data : List Byte) (h : data ≠ []) :
    get_entropy data =
      -(∑ b ∈ Finset.univ.filter (fun b : Byte => data.count b ≠ 0),
          byteProb data b * Real.logb 2 (byteProb data b)) := by
  have hlen : data.length ≠ 0 := by simpa using h
  unfold get_entropy
  rw [if_neg hlen]
  have hbody : (fun (entropy : ℝ) (x : Byte) =>
      if data.count x ≠ 0 then
        entropy - ((data.count x : ℝ) / (data.length : ℝ)) *
          Real.logb 2 ((data.count x : ℝ) / (data.length : ℝ))
      else entropy) =
      fun (entropy : ℝ) (x : Byte) =>
        entropy - (if data.count x ≠ 0 then
          byteProb data x * Real.logb 2 (byteProb data x) else 0) := by
    funext e x
    by_cases hx : data.count x ≠ 0 <;> simp [hx, byteProb]
  rw [hbody, foldl_sub_eq, zero_sub, neg_inj, ← Fin.sum_univ_def,
    Finset.sum_filter]

/-- The histogram counts of a list over all of Fin 256 sum to its length. -/
lemma sum_count_eq_length (data : List Byte) :
    ∑ b : Byte, data.count b = data.length := by
  induction data with
  | nil => simp
  | cons x xs ih =>
    have hc : ∀ b : Byte, (x :: xs).count b = xs.count b + if b = x then 1 else 0 := by
      intro b
      by_cases hbx : b = x
      · subst hbx; simp
      · simp [List.count_cons, hbx, Ne.symm hbx]
    simp only [hc]
    rw [Finset.sum_add_distrib, ih, Finset.sum_ite_eq' Finset.univ x (fun _ => 1)]
    simp

/-- The histogram probabilities are nonnegative and sum to one, and each is
at most one. -/
lemma byteProb_nonneg (data : List Byte) (b : Byte) : 0 ≤ byteProb data b := by
  unfold byteProb
  positivity

lemma byteProb_le_one (data : List Byte) (b : Byte) : byteProb data b ≤ 1 := by
  unfold byteProb
  rcases Nat.eq_zero_or_pos data.length with h | h
  · simp [h]
  · rw [div_le_one (by exact_mod_cast h)]
    exact_mod_cast data.count_le_length b

lemma byteProb_sum_eq_one (data : List Byte) (h : data ≠ []) :
    ∑ b : Byte, byteProb data b = 1 := by
  have hlen : (data.length : ℝ) ≠ 0 := by
    simpa using (by simpa using h : data.length ≠ 0)
  unfold byteProb
  rw [← Finset.sum_div]
  rw [div_eq_one_iff_eq hlen]
  exact_mod_cast sum_count_eq_length data

/-- Entropy is nonnegative: every summand p * log2 p with 0 <= p <= 1 is
nonpositive, so its negated sum is nonnegative. -/
lemma get_entropy_nonneg (data : List Byte) : 0 ≤ get_entropy data := by
  rcases eq_or_ne data [] with h | h
  · simp [get_entropy, h]
  · rw [get_entropy_eq_sum data h, neg_nonneg]
    apply Finset.sum_nonpos
    intro b _
    exact mul_nonpos_iff.mpr (Or.inl ⟨byteProb_nonneg data b,
      Real.logb_nonpos (by norm_num) (byteProb_nonneg data b) (byteProb_le_one data b)⟩)

/-- Entropy of a byte buffer is at most 8 bits, by the concavity of log
(Jensen) applied to the histogram distribution over at most 256 buckets. -/
lemma get_entropy_le_eight (data : List Byte) : get_entropy data ≤ 8 := by
  rcases eq_or_ne data [] with h | h
  · rw [get_entropy, if_pos (by simp [h])]; norm_num
  · have hlenpos : 0 < (data.length : ℝ) := by
      have h0 : data.length ≠ 0 := by simpa using h
      exact_mod_cast Nat.pos_of_ne_zero h0
    have hwpos : ∀ b ∈ byteSupport data, 0 < byteProb data b := by
      intro b hb
      rw [byteSupport, Finset.mem_filter] at hb
      have hc : 0 < (data.count b : ℝ) := by exact_mod_cast Nat.pos_of_ne_zero hb.2
      exact div_pos hc hlenpos
    have hw0 : ∀ b ∈ byteSupport data, 0 ≤ byteProb data b :=
      fun b hb => (hwpos b hb).le
    have hw1 : ∑ b ∈ byteSupport data, byteProb data b = 1 := by
      rw [byteSupport, Finset.sum_filter_of_ne, byteProb_sum_eq_one data h]
      intro b _ hne hc
      exact hne (by simp [byteProb, hc])
    have hmem : ∀ b ∈ byteSupport data, (byteProb data b)⁻¹ ∈ Set.Ioi (0 : ℝ) :=
      fun b hb => Set.mem_Ioi.mpr (inv_pos.mpr (hwpos b hb))
    have jensen := (strictConcaveOn_log_Ioi.concaveOn).le_map_sum hw0 hw1 hmem
    have hinner : ∑ b ∈ byteSupport data, byteProb data b • (byteProb data b)⁻¹ =
        ((byteSupport data).card : ℝ) := by
      rw [Finset.sum_congr rfl (fun b hb => ?_), Finset.sum_const, nsmul_eq_mul, mul_one]
      rw [smul_eq_mul, mul_inv_cancel₀ (hwpos b hb).ne']
    rw [hinner] at jensen
    have hlog2 : 0 < Real.log 2 := Real.log_pos (by norm_num)
    have hsum : ∑ b ∈ byteSupport data,
        byteProb data b • Real.log (byteProb data b)⁻¹ =
        (-(∑ b ∈ byteSupport data,
            byteProb data b * Real.logb 2 (byteProb data b))) * Real.log 2 := by
      calc ∑ b ∈ byteSupport data, byteProb data b • Real.log (byteProb data b)⁻¹
          = ∑ b ∈ byteSupport data,
              (-(byteProb data b * Real.logb 2 (byteProb data b))) * Real.log 2 := by
            apply Finset.sum_congr rfl
            intro b _
            rw [smul_eq_mul, Real.log_inv, ← Real.log_div_log]
            field_simp
        _ = (∑ b ∈ byteSupport data,
              -(byteProb data b * Real.logb 2 (byteProb data b))) * Real.log 2 :=
            (Finset.sum_mul _ _ _).symm
        _ = (-(∑ b ∈ byteSupport data,
              byteProb data b * Real.logb 2 (byteProb data b))) * Real.log 2 := by
            rw [Finset.sum_neg_distrib]
    have hrepr : (∑ b ∈ byteSupport data,
        byteProb data b • Real.log (byteProb data b)⁻¹) / Real.log 2 =
        get_entropy data := by
      rw [hsum, mul_div_assoc, div_self hlog2.ne', mul_one,
        get_entropy_eq_sum data h]
      rfl
    rw [← hrepr]
    have hcard_le : ((byteSupport data).card : ℝ) ≤ 256 := by
      have hle : (byteSupport data).card ≤ 256 := by
        calc (byteSupport data).card ≤ Finset.univ.card :=
              Finset.card_filter_le _ _
          _ = 256 := by rw [Finset.card_univ]; exact Fintype.card_fin 256
      exact_mod_cast hle
    have hcard_pos : (0 : ℝ) < ((byteSupport data).card : ℝ) := by
      have hmemS : data.head h ∈ byteSupport data := by
        rw [byteSupport, Finset.mem_filter]
        refine ⟨Finset.mem_univ _, ?_⟩
        have : data.head h ∈ data := List.head_mem h
        simpa [Nat.pos_iff_ne_zero] using List.count_pos_iff.mpr this
      have : 0 < (byteSupport data).card := Finset.card_pos.mpr ⟨_, hmemS⟩
      exact_mod_cast this
    have hlogcard : Real.log ((byteSupport data).card : ℝ) ≤ Real.log 256 :=
      (Real.log_le_log_iff hcard_pos (by norm_num)).mpr hcard_le
    have hchain : (∑ b ∈ byteSupport data,
        byteProb data b • Real.log (byteProb data b)⁻¹) ≤ Real.log 256 :=
      le_trans jensen hlogcard
    have h256 : Real.log 256 = 8 * Real.log 2 := by
      have : (256 : ℝ) = 2 ^ (8 : ℕ) := by norm_num
      rw [this, Real.log_pow]
      norm_num
    calc (∑ b ∈ byteSupport data, byteProb data b • Real.log (byteProb data b)⁻¹) /
          Real.log 2
        ≤ Real.log 256 / Real.log 2 := by gcongr
      _ = 8 := by rw [h256, mul_div_assoc, div_self hlog2.ne', mul_one]

/-- Entropy of n identical bytes is exactly zero: the single nonzero bucket
has probability one and log2 1 = 0. -/
lemma get_entropy_replicate (b : Byte) (n : ℕ) (hn : 0 < n) :
    get_entropy (List.replicate n b) = 0 := by
  have hne : List.replicate n b ≠ [] := by
    simp [hn.ne']
  rw [get_entropy_eq_sum _ hne]
  have hfilter : Finset.univ.filter
      (fun x : Byte => (List.replicate n b).count x ≠ 0) = {b} := by
    ext x
    simp only [Finset.mem_filter, Finset.mem_univ, true_and, Finset.mem_singleton,
      List.count_replicate]
    constructor
    · intro hx
      by_contra hxb
      exact hx (by simp [beq_iff_eq, Ne.symm hxb])
    · intro hx
      subst hx
      simp [hn.ne']
  rw [hfilter, Finset.sum_singleton]
  have hp : byteProb (List.replicate n b) b = 1 := by
    unfold byteProb
    rw [List.count_replicate_self, List.length_replicate]
    exact div_self (by exact_mod_cast hn.ne')
  rw [hp]
  simp

lemma walkLang_eq (pe : PEState) :
    ∀ (langs : List LangEntry) (acc : List (ℝ × ℕ)),
      walkLang pe acc langs = (acc ++ takeLeaves pe langs, hasFail pe langs) := by
  intro langs
  induction langs with
  | nil => intro acc; simp [walkLang, takeLeaves, hasFail]
  | cons le rest ih =>
    intro acc
    cases h : leafResult pe le with
    | none => simp [walkLang, takeLeaves, hasFail, h]
    | some p => simp [walkLang, takeLeaves, hasFail, h, ih]

lemma hasFail_append (pe : PEState) (xs ys : List LangEntry) :
    hasFail pe (xs ++ ys) = (hasFail pe xs || hasFail pe ys) := by
  induction xs with
  | nil => simp [hasFail]
  | cons le rest ih =>
    cases h : leafResult pe le with
    | none => simp [hasFail, h]
    | some p => simp [hasFail, h, ih]

lemma takeLeaves_append (pe : PEState) (xs ys : List LangEntry) :
    takeLeaves pe (xs ++ ys) =
      takeLeaves pe xs ++ (if hasFail pe xs then [] else takeLeaves pe ys) := by
  induction xs with
  | nil => simp [takeLeaves, hasFail]
  | cons le rest ih =>
    cases h : leafResult pe le with
    | none => simp [takeLeaves, hasFail, h]
    | some p => simp [takeLeaves, hasFail, h, ih]

lemma walkId_eq (pe : PEState) :
    ∀ (ids : List IdEntry) (acc : List (ℝ × ℕ)),
      walkId pe acc ids =
        (acc ++ takeLeaves pe (idLeaves ids), hasFail pe (idLeaves ids)) := by
  intro ids
  induction ids with
  | nil => intro acc; simp [walkId, idLeaves, takeLeaves, hasFail]
  | cons ie rest ih =>
    intro acc
    cases hdir : ie.directory with
    | none => simp [walkId, hdir, idLeaves, ih]
    | some langs =>
      have hw := walkLang_eq pe langs acc
      have hleaves : idLeaves (ie :: rest) = langs ++ idLeaves rest := by
        simp [idLeaves, hdir]
      cases hfail : hasFail pe langs with
      | true =>
        simp [walkId, hdir, hw, hfail, hleaves, takeLeaves_append,
          hasFail_append]
      | false =>
        simp [walkId, hdir, hw, hfail, hleaves, takeLeaves_append,
          hasFail_append, ih, List.append_assoc]

lemma walkType_eq (pe : PEState) :
    ∀ (types : List TypeEntry) (acc : List (ℝ × ℕ)),
      walkType pe acc types =
        (acc ++ takeLeaves pe (typeLeaves types), hasFail pe (typeLeaves types)) := by
  intro types
  induction types with
  | nil => intro acc; simp [walkType, typeLeaves, takeLeaves, hasFail]
  | cons te rest ih =>
    intro acc
    cases hdir : te.directory with
    | none => simp [walkType, hdir, typeLeaves, idLeaves, ih]
    | some ids =>
      have hw := walkId_eq pe ids acc
      have hleaves : typeLeaves (te :: rest) = idLeaves ids ++ typeLeaves rest := by
        simp [typeLeaves, hdir]
      cases hfail : hasFail pe (idLeaves ids) with
      | true =>
        simp [walkType, hdir, hw, hfail, hleaves, takeLeaves_append,
          hasFail_append]
      | false =>
        simp [walkType, hdir, hw, hfail, hleaves, takeLeaves_append,
          hasFail_append, ih, List.append_assoc]

/-- get_resources is exactly the stop-at-first-failure processing of the
flattened leaf sequence. -/
lemma get_resources_eq_takeLeaves (pe : PEState) :
    get_resources pe = takeLeaves pe (peResourceLeaves pe) := by
  unfold get_resources peResourceLeaves
  cases pe.DIRECTORY_ENTRY_RESOURCE with
  | none => simp [takeLeaves]
  | some types => simp [walkType_eq]

lemma foldl_min_le_init {α : Type} [LinearOrder α] :
    ∀ (l : List α) (a : α), l.foldl min a ≤ a := by
  intro l
  induction l with
  | nil => intro a; simp
  | cons x xs ih => intro a; exact le_trans (ih (min a x)) (min_le_left a x)

lemma foldl_min_le_mem {α : Type} [LinearOrder α] :
    ∀ (l : List α) (a x : α), x ∈ l → l.foldl min a ≤ x := by
  intro l
  induction l with
  | nil => intro a x hx; cases hx
  | cons y ys ih =>
    intro a x hx
    rcases List.mem_cons.mp hx with h | h
    · subst h
      exact le_trans (foldl_min_le_init ys (min a x)) (min_le_right a x)
    · exact ih (min a y) x h

lemma init_le_foldl_max {α : Type} [LinearOrder α] :
    ∀ (l : List α) (a : α), a ≤ l.foldl max a := by
  intro l
  induction l with
  | nil => intro a; simp
  | cons x xs ih => intro a; exact le_trans (le_max_left a x) (ih (max a x))

lemma mem_le_foldl_max {α : Type} [LinearOrder α] :
    ∀ (l : List α) (a x : α), x ∈ l → x ≤ l.foldl max a := by
  intro l
  induction l with
  | nil => intro a x hx; cases hx
  | cons y ys ih =>
    intro a x hx
    rcases List.mem_cons.mp hx with h | h
    · subst h
      exact le_trans (le_max_right a x) (init_le_foldl_max ys (max a x))
    · exact ih (max a y) x h

/-- listMinD is a lower bound of the list elements. -/
lemma listMinD_le_mem {α : Type} [LinearOrder α] (l : List α) (d : α) :
    ∀ x ∈ l, listMinD l d ≤ x := by
  cases l with
  | nil => intro x hx; cases hx
  | cons y ys =>
    intro x hx
    rcases List.mem_cons.mp hx with h | h
    · subst h; exact foldl_min_le_init ys x
    · exact foldl_min_le_mem ys y x h

/-- listMaxD is an upper bound of the list elements. -/
lemma mem_le_listMaxD {α : Type} [LinearOrder α] (l : List α) (d : α) :
    ∀ x ∈ l, x ≤ listMaxD l d := by
  cases l with
  | nil => intro x hx; cases hx
  | cons y ys =>
    intro x hx
    rcases List.mem_cons.mp hx with h | h
    · subst h; exact init_le_foldl_max ys x
    · exact mem_le_foldl_max ys y x h

/-- For a nonempty list of reals, the minimum is at most the mean. -/
lemma listMinD_le_mean (l : List ℝ) (h : l ≠ []) :
    listMinD l 0 ≤ l.sum / (l.length : ℝ) := by
  have hlen : 0 < (l.length : ℝ) := by exact_mod_cast List.length_pos.mpr h
  rw [le_div_iff hlen]
  have hsum : l.length • listMinD l 0 ≤ l.sum :=
    List.card_nsmul_le_sum l _ (listMinD_le_mem l 0)
  calc listMinD l 0 * (l.length : ℝ) = l.length • listMinD l 0 := by
        rw [nsmul_eq_mul, mul_comm]
    _ ≤ l.sum := hsum

/-- For a nonempty list of reals, the mean is at most the maximum. -/
lemma mean_le_listMaxD (l : List ℝ) (h : l ≠ []) :
    l.sum / (l.length : ℝ) ≤ listMaxD l 0 := by
  have hlen : 0 < (l.length : ℝ) := by exact_mod_cast List.length_pos.mpr h
  rw [div_le_iff hlen]
  have hsum : l.sum ≤ l.length • listMaxD l 0 :=
    List.sum_le_card_nsmul l _ (mem_le_listMaxD l 0)
  calc l.sum ≤ l.length • listMaxD l 0 := hsum
    _ = listMaxD l 0 * (l.length : ℝ) := by rw [nsmul_eq_mul, mul_comm]

/-- Same bounds for a nonempty list of naturals, with the mean taken as a
real number as the program computes it. -/
lemma natMinD_le_mean (l : List ℕ) (h : l ≠ []) :
    ((listMinD l 0 : ℕ) : ℝ) ≤ (l.sum : ℝ) / (l.length : ℝ) := by
  have hlen : 0 < (l.length : ℝ) := by exact_mod_cast List.length_pos.mpr h
  rw [le_div_iff hlen]
  have hsum : l.length • listMinD l 0 ≤ l.sum :=
    List.card_nsmul_le_sum l _ (listMinD_le_mem l 0)
  have hmul : l.length * listMinD l 0 ≤ l.sum := by simpa [smul_eq_mul] using hsum
  calc ((listMinD l 0 : ℕ) : ℝ) * (l.length : ℝ)
      = ((l.length * listMinD l 0 : ℕ) : ℝ) := by rw [Nat.cast_mul, mul_comm]
    _ ≤ (l.sum : ℝ) := by exact_mod_cast hmul

lemma natMean_le_max (l : List ℕ) (h : l ≠ []) :
    (l.sum : ℝ) / (l.length : ℝ) ≤ ((listMaxD l 0 : ℕ) : ℝ) := by
  have hlen : 0 < (l.length : ℝ) := by exact_mod_cast List.length_pos.mpr h
  rw [div_le_iff hlen]
  have hsum : l.sum ≤ l.length • listMaxD l 0 :=
    List.sum_le_card_nsmul l _ (mem_le_listMaxD l 0)
  have hmul : l.sum ≤ l.length * listMaxD l 0 := by simpa [smul_eq_mul] using hsum
  calc (l.sum : ℝ) ≤ ((l.length * listMaxD l 0 : ℕ) : ℝ) := by exact_mod_cast hmul
    _ = ((listMaxD l 0 : ℕ) : ℝ) * (l.length : ℝ) := by rw [Nat.cast_mul, mul_comm]

lemma statsR_shape (l : List ℝ) : ∃ a b c, statsR l = [a, b, c] := by
  unfold statsR
  split <;> exact ⟨_, _, _, rfl⟩

lemma statsN_shape (l : List ℕ) : ∃ a b c, statsN l = [a, b, c] := by
  unfold statsN
  split <;> exact ⟨_, _, _, rfl⟩

/-- A successful extraction on a parsed file returns exactly the mkVector
list for some resolved version field. -/
lemma extract_infos_shape (f : FileRec) (pe : PEState) (v : List FeatureValue)
    (hp : f.parse = some pe) (hv : extract_infos f = Except.ok v) :
    ∃ vf, v = mkVector f pe vf := by
  unfold extract_infos at hv
  rw [hp] at hv
  have hv2 : (match get_version_info pe with
      | Except.ok m => Except.ok (mkVector f pe (FeatureValue.int m.length))
      | Except.error PyErr.attributeError =>
        Except.ok (mkVector f pe (FeatureValue.int 0))
      | Except.error e => Except.error e) = Except.ok v := hv
  cases hvi : get_version_info pe with
  | ok m =>
    rw [hvi] at hv2
    exact ⟨FeatureValue.int m.length, (Except.ok.inj hv2).symm⟩
  | error e =>
    cases e with
    | attributeError =>
      rw [hvi] at hv2
      exact ⟨FeatureValue.int 0, (Except.ok.inj hv2).symm⟩
    | typeError => rw [hvi] at hv2; exact Except.noConfusion hv2
    | peFormatError => rw [hvi] at hv2; exact Except.noConfusion hv2

/-- Every mkVector list has exactly 56 entries. -/
lemma mkVector_length (f : FileRec) (pe : PEState) (vf : FeatureValue) :
    (mkVector f pe vf).length = 56 := by
  obtain ⟨a1, a2, a3, h1⟩ := statsR_shape (pe.sections.map (fun x => x.get_entropy))
  obtain ⟨b1, b2, b3, h2⟩ := statsN_shape (pe.sections.map (fun x => x.SizeOfRawData))
  obtain ⟨c1, c2, c3, h3⟩ := statsN_shape (pe.sections.map (fun x => x.Misc_VirtualSize))
  obtain ⟨d1, d2, d3, h4⟩ := statsR_shape ((get_resources pe).map Prod.fst)
  obtain ⟨e1, e2, e3, h5⟩ := statsN_shape ((get_resources pe).map Prod.snd)
  simp [mkVector, h1, h2, h3, h4, h5]

/-- Every successfully extracted feature list has exactly 56 entries. -/
lemma extract_length (f : FileRec) (v : List FeatureValue)
    (hv : extract_infos f = Except.ok v) : v.length = 56 := by
  cases hp : f.parse with
  | none => unfold extract_infos at hv; rw [hp] at hv; simp at hv
  | some pe =>
    obtain ⟨vf, rfl⟩ := extract_infos_shape f pe v hp hv
    exact mkVector_length f pe vf

/-- Concrete evaluation of extract_infos on file1. -/
lemma extract_file1 : extract_infos file1 = Except.ok file1Vec := rfl

/-- Claim C3: the entropy function returns exactly 0.0 for an empty input
as a special case reached before any probability computation; for every
nonempty input it returns the negated sum of p * log2 p over the
256-bucket histogram of byte values, where zero-count buckets are skipped
and contribute nothing. -/
theorem claim3_entropy_formula :
    get_entropy [] = 0 ∧
      ∀ data : List Byte, data ≠ [] →
        get_entropy data =
          -(∑ b ∈ Finset.univ.filter (fun b : Byte => data.count b ≠ 0),
              ((data.count b : ℝ) / (data.length : ℝ)) *
                Real.logb 2 ((data.count b : ℝ) / (data.length : ℝ))) := by
  constructor
  · simp [get_entropy]
  · intro data h
    simpa [byteProb] using get_entropy_eq_sum data h

/-- Witness for C3 at the concrete one-byte buffer. -/
theorem claim3_entropy_formula_witness :
    get_entropy [(0 : Byte)] =
      -(∑ b ∈ Finset.univ.filter (fun b : Byte => [(0 : Byte)].count b ≠ 0),
          (([(0 : Byte)].count b : ℝ) / (([(0 : Byte)] : List Byte).length : ℝ)) *
            Real.logb 2
              (([(0 : Byte)].count b : ℝ) / (([(0 : Byte)] : List Byte).length : ℝ))) :=
  claim3_entropy_formula.2 [(0 : Byte)] (by simp)

/-- Claim C7: for every input buffer the entropy lies in [0, 8]; it is
exactly 0.0 for the empty buffer by the defined special case, and exactly
0.0 for every buffer of N copies of a single byte value, for any N > 0. -/
theorem claim7_entropy_range (data : List Byte) :
    (0 ≤ get_entropy data ∧ get_entropy data ≤ 8) ∧
      get_entropy [] = 0 ∧
      ∀ (b : Byte) (n : ℕ), 0 < n → get_entropy (List.replicate n b) = 0 :=
  ⟨⟨get_entropy_nonneg data, get_entropy_le_eight data⟩,
    by simp [get_entropy],
    fun b n hn => get_entropy_replicate b n hn⟩

/-- Witness for C7 at concrete buffers. -/
theorem claim7_entropy_range_witness :
    (0 ≤ get_entropy [(3 : Byte), 7] ∧ get_entropy [(3 : Byte), 7] ≤ 8) ∧
      get_entropy (List.replicate 5 (7 : Byte)) = 0 :=
  ⟨(claim7_entropy_range [(3 : Byte), 7]).1,
    (claim7_entropy_range []).2.2 7 5 (by norm_num)⟩

/-- Claim C8: for every nonempty collection aggregated by the statistic
helpers of extract_infos (statsR for entropy collections, statsN for size
collections), the emitted triple is mean, min, max with
min <= mean <= max, where the mean is the arithmetic mean and min and max
are the exact extrema of the collection. -/
theorem claim8_stats_order (l : List ℝ) (n : List ℕ)
    (hl : l ≠ []) (hn : n ≠ []) :
    (statsR l = [FeatureValue.real (l.sum / (l.length : ℝ)),
        FeatureValue.real (listMinD l 0), FeatureValue.real (listMaxD l 0)] ∧
      listMinD l 0 ≤ l.sum / (l.length : ℝ) ∧
      l.sum / (l.length : ℝ) ≤ listMaxD l 0) ∧
    (statsN n = [FeatureValue.real ((n.sum : ℝ) / (n.length : ℝ)),
        FeatureValue.int (listMinD n 0), FeatureValue.int (listMaxD n 0)] ∧
      ((listMinD n 0 : ℕ) : ℝ) ≤ (n.sum : ℝ) / (n.length : ℝ) ∧
      (n.sum : ℝ) / (n.length : ℝ) ≤ ((listMaxD n 0 : ℕ) : ℝ)) := by
  refine ⟨⟨?_, listMinD_le_mean l hl, mean_le_listMaxD l hl⟩,
    ⟨?_, natMinD_le_mean n hn, natMean_le_max n hn⟩⟩
  · unfold statsR
    rw [if_pos (List.length_pos.mpr hl)]
  · unfold statsN
    rw [if_pos (List.length_pos.mpr hn)]

/-- Witness for C8 at concrete collections. -/
theorem claim8_stats_order_witness :
    listMinD [(2 : ℝ), 4] 0 ≤ ([(2 : ℝ), 4] : List ℝ).sum /
        ((([(2 : ℝ), 4] : List ℝ).length : ℕ) : ℝ) ∧
      ((([3, 5] : List ℕ).sum : ℕ) : ℝ) / ((([3, 5] : List ℕ).length : ℕ) : ℝ) ≤
        ((listMaxD ([3, 5] : List ℕ) 0 : ℕ) : ℝ) :=
  ⟨(claim8_stats_order [2, 4] [3, 5] (by simp) (by simp)).1.2.1,
   (claim8_stats_order [2, 4] [3, 5] (by simp) (by simp)).2.2.2⟩

/-- Claim C4: in every successfully extracted vector, an empty statistic
collection (no sections for the three section triples, no resources for
the two resource triples) makes the corresponding mean, min and max
fields literal integer zeros, never missing values: with zero sections
the nine section statistic fields, positions 34 to 42 of the vector, are
all 0, and with zero resources the six resource statistic fields,
positions 48 to 53, are all 0. -/
theorem claim4_empty_stats (f : FileRec) (pe : PEState) (v : List FeatureValue)
    (hp : f.parse = some pe) (hv : extract_infos f = Except.ok v) :
    (pe.sections = [] →
      (v.drop 34).take 9 = List.replicate 9 (FeatureValue.int 0)) ∧
    (get_resources pe = [] →
      (v.drop 48).take 6 = List.replicate 6 (FeatureValue.int 0)) := by
  obtain ⟨vf, rfl⟩ := extract_infos_shape f pe v hp hv
  constructor
  · intro hs
    simp only [mkVector, hs, List.map_nil]
    rfl
  · intro hr
    obtain ⟨a1, a2, a3, h1⟩ := statsR_shape (pe.sections.map (fun x => x.get_entropy))
    obtain ⟨b1, b2, b3, h2⟩ := statsN_shape (pe.sections.map (fun x => x.SizeOfRawData))
    obtain ⟨c1, c2, c3, h3⟩ := statsN_shape (pe.sections.map (fun x => x.Misc_VirtualSize))
    simp only [mkVector, hr, h1, h2, h3, List.map_nil]
    rfl

/-- Witness for C4 at file1, which has no sections and no resources. -/
theorem claim4_empty_stats_witness :
    (file1Vec.drop 34).take 9 = List.replicate 9 (FeatureValue.int 0) ∧
      (file1Vec.drop 48).take 6 = List.replicate 6 (FeatureValue.int 0) :=
  ⟨(claim4_empty_stats file1 emptyPE file1Vec rfl extract_file1).1 rfl,
   (claim4_empty_stats file1 emptyPE file1Vec rfl extract_file1).2 rfl⟩

/-- Claim C1 counterexample: the successful extraction of the concrete
file1 yields a vector of 56 fields, not the 57 announced by the claim. -/
theorem claim1_count_counterexample :
    extract_infos file1 = Except.ok file1Vec ∧ file1Vec.length ≠ 57 :=
  ⟨extract_file1, by decide⟩

/-- Claim C1 as amended: for every buffer on which extraction succeeds
the returned vector has exactly 56 fields, matching the count of the
schema list of spec section 6 in its order; in particular position 0
holds Name, position 2 Machine and position 33 SectionsNb. -/
theorem claim1_field_count (f : FileRec) (pe : PEState) (v : List FeatureValue)
    (hp : f.parse = some pe) (hv : extract_infos f = Except.ok v) :
    v.length = 56 ∧ v.length = specSchemaFields.length ∧
      v.get? 0 = some (FeatureValue.str f.name) ∧
      v.get? 2 = some (FeatureValue.int pe.FILE_HEADER.Machine) ∧
      v.get? 33 = some (FeatureValue.int pe.sections.length) := by
  obtain ⟨vf, rfl⟩ := extract_infos_shape f pe v hp hv
  refine ⟨mkVector_length f pe vf, ?_, ?_, ?_, ?_⟩
  · rw [mkVector_length f pe vf]
    rfl
  · rfl
  · rfl
  · rfl

/-- Witness for the amended C1 at file1. -/
theorem claim1_field_count_witness :
    file1Vec.length = 56 ∧ file1Vec.length = specSchemaFields.length :=
  ⟨(claim1_field_count file1 emptyPE file1Vec rfl extract_file1).1,
   (claim1_field_count file1 emptyPE file1Vec rfl extract_file1).2.1⟩

/-- Claim C10: the batch output is internally inconsistent in width: the
header line has 58 column names including impash, while every data row
written by the batch loop has 57 values, the 56 fields of extract_infos
plus the appended label, so no data row aligns positionally with every
header column. -/
theorem claim10_header_row_mismatch :
    columns.length = 58 ∧ "impash" ∈ columns ∧
      ∀ (label : ℕ) (fs : List FileRec) (r : List FeatureValue),
        r ∈ (processFiles label fs).1 →
          r.length = 57 ∧ r.length < columns.length := by
  refine ⟨rfl, ?_, ?_⟩
  · exact List.mem_cons_of_mem _ (List.mem_cons_of_mem _ (List.mem_cons_self _ _))
  · intro label fs
    induction fs with
    | nil => intro r hr; simp [processFiles] at hr
    | cons f rest ih =>
      intro r hr
      cases hx : extract_infos f with
      | ok v =>
        have hr2 : r ∈ ((v ++ [FeatureValue.int label]) ::
            (processFiles label rest).1) := by
          simpa [processFiles, hx] using hr
        rcases List.mem_cons.mp hr2 with h | h
        · subst h
          have hlen := extract_length f v hx
          refine ⟨by simp [hlen], ?_⟩
          simp only [List.length_append, hlen, List.length_singleton]
          decide
        · exact ih r h
      | error e =>
        cases e with
        | peFormatError =>
          have hmem : r ∈ (processFiles label rest).1 := by
            simpa [processFiles, hx] using hr
          exact ih r hmem
        | attributeError =>
          have hmem : r ∈ ([] : List (List FeatureValue)) := by
            simpa [processFiles, hx] using hr
          cases hmem
        | typeError =>
          have hmem : r ∈ ([] : List (List FeatureValue)) := by
            simpa [processFiles, hx] using hr
          cases hmem

/-- Witness for C10 at the batch over the single file file1. -/
theorem claim10_header_row_mismatch_witness :
    (file1Vec ++ [FeatureValue.int 1]).length = 57 ∧
      (file1Vec ++ [FeatureValue.int 1]).length < columns.length :=
  claim10_header_row_mismatch.2.2 1 [file1] (file1Vec ++ [FeatureValue.int 1])
    (List.mem_singleton.mpr rfl)

/-- Claim C6: a buffer whose container parse fails produces the single
typed parse error with no partial vector, and the batch loop catches
exactly that error, skips the file and continues with the remaining
files, its output unchanged by the presence of the bad file. -/
theorem claim6_parse_error_skip (f : FileRec) (xs ys : List FileRec) (label : ℕ)
    (hp : f.parse = none) :
    extract_infos f = Except.error PyErr.peFormatError ∧
      processFiles label (xs ++ f :: ys) = processFiles label (xs ++ ys) := by
  have hx : extract_infos f = Except.error PyErr.peFormatError := by
    unfold extract_infos
    rw [hp]
  refine ⟨hx, ?_⟩
  induction xs with
  | nil => simp [processFiles, hx]
  | cons g gs ih =>
    simp only [List.cons_append]
    cases hg : extract_infos g with
    | ok v => simp [processFiles, hg, ih]
    | error e => cases e <;> simp [processFiles, hg, ih]

/-- Witness for C6 at the concrete unparseable badFile. -/
theorem claim6_parse_error_skip_witness :
    extract_infos badFile = Except.error PyErr.peFormatError ∧
      processFiles 1 ([] ++ badFile :: []) = processFiles 1 ([] ++ []) :=
  claim6_parse_error_skip badFile [] [] 1 rfl

/-- Claim C5: get_resources returns the empty list when the resource
directory is absent, and always returns exactly the (entropy, size)
pairs of the leaves processed, in walk order, up to the first failing
leaf: a failure truncates the walk, keeps everything already collected
and propagates no error out of the walker. -/
theorem claim5_resource_truncation (pe : PEState) :
    (pe.DIRECTORY_ENTRY_RESOURCE = none → get_resources pe = []) ∧
      get_resources pe = takeLeaves pe (peResourceLeaves pe) := by
  refine ⟨fun h => ?_, get_resources_eq_takeLeaves pe⟩
  unfold get_resources
  rw [h]

/-- Witness for C5 at the resource-free emptyPE. -/
theorem claim5_resource_truncation_witness :
    get_resources emptyPE = [] :=
  (claim5_resource_truncation emptyPE).1 rfl

/-- Claim C9 counterexample: a present import directory holding one
descriptor with an empty import list yields ImportsNb = 0 and
ImportsNbOrdinal = 0 with the directory not absent, refuting the claim
that both counts are 0 exactly when the import directory is absent. -/
theorem claim9_ordinal_counterexample :
    ¬ (((importCounts importPE).2.1 = 0 ∧ (importCounts importPE).2.2 = 0) ↔
        importPE.DIRECTORY_ENTRY_IMPORT = none) := by
  intro h
  have h2 := h.mp ⟨rfl, rfl⟩
  simp [importPE, emptyPE] at h2

/-- Claim C9 as amended: ImportsNbOrdinal never exceeds ImportsNb, both
being computed from the same flattened symbol list, and both are 0
whenever the import directory is absent. -/
theorem claim9_ordinal_le_total (pe : PEState) :
    (importCounts pe).2.2 ≤ (importCounts pe).2.1 ∧
      (pe.DIRECTORY_ENTRY_IMPORT = none →
        (importCounts pe).2.1 = 0 ∧ (importCounts pe).2.2 = 0) := by
  constructor
  · unfold importCounts
    cases pe.DIRECTORY_ENTRY_IMPORT with
    | none => simp
    | some dlls => exact List.length_filter_le _ _
  · intro h
    unfold importCounts
    rw [h]
    exact ⟨rfl, rfl⟩

/-- Witness for the amended C9 at emptyPE, whose import directory is
absent. -/
theorem claim9_ordinal_le_total_witness :
    (importCounts emptyPE).2.1 = 0 ∧ (importCounts emptyPE).2.2 = 0 :=
  (claim9_ordinal_le_total emptyPE).2 rfl

/-- Claim C2 is contradicted by the code: on file2, whose PE carries one
VarFileInfo block with one Var entry, get_version_info evaluates the
Python 3 expression var.entry.items()[0][0], which raises TypeError
because dict.items() views do not support subscripting; the surrounding
except AttributeError does not catch it, so the error escapes
extract_infos instead of being absorbed into VersionInformationSize = 0,
and the batch loop, which catches only PEFormatError, aborts: no row is
written and the remaining files (here file1) are never processed. -/
theorem claim2_typeerror_escapes :
    extract_infos file2 = Except.error PyErr.typeError ∧
      processFiles 1 [file2, file1] = ([], some PyErr.typeError) :=
  ⟨rfl, rfl⟩
